import Mathlib

/-!
Verification of the termaite task orchestrator and context-budget manager.

This file gives a shallow embedding, in Lean, of the core of the termaite
repository: the LLM response parsers (`termaite/llm/parsers.py`), the context
compactor (`termaite/core/context_compactor.py`) and the task handler
(`termaite/core/task_handler.py`), and proves and refutes properties of these
functions.

Modelling conventions:
* Python strings are Lean `String`s (both sequences of unicode code points);
  `str.strip()` is modelled by `String.trim` and `str.lower()` by
  `String.toLower` (exact on the ASCII text these functions handle).
* Python `len(text)` is `String.length`, Python `//` on non-negative ints is
  `Nat` division.
* The external collaborators (payload builder, LLM transport, interactive
  input, command executor, permission manager) are injected as function-valued
  parameters; a falsy (`None`/empty) Python result is an empty string or a
  `false`/`none` value, mirroring each call site's truthiness test.
* The durable context store (`context.json`) is modelled as an association
  list from session key (working-directory hash) to the list of stored
  entries, holding exactly the fields the code reads and writes.
-/

/-! ## LLM response parsers (`termaite/llm/parsers.py`) -/

/-- Index of the first occurrence of `needle` as a contiguous sublist of
`hay`, if any.  Models the scan a Python `re.search` with a literal pattern
performs (leftmost match). -/
def findSub (needle : List Char) : List Char → Option Nat
  | [] => if needle.isPrefixOf ([] : List Char) then some 0 else none
  | c :: rest =>
    if needle.isPrefixOf (c :: rest) then some 0
    else (findSub needle rest).map (· + 1)

/-- Python's substring test `needle in hay`. -/
def containsSub (needle hay : List Char) : Bool :=
  (findSub needle hay).isSome

/-- Python `str.strip()`: drop whitespace from both ends.  (Lean's
`Char.isWhitespace` covers the space, tab, newline and carriage-return
characters these texts contain.) -/
def py_strip (s : String) : String :=
  String.mk (((s.data.dropWhile Char.isWhitespace).reverse.dropWhile Char.isWhitespace).reverse)

/-- Python `str.lower()` (exact on the ASCII text handled here). -/
def py_lower (s : String) : String :=
  String.mk (s.data.map Char.toLower)

/-- Python `str.startswith(pre)`. -/
def py_startsWith (s pre : String) : Bool :=
  pre.data.isPrefixOf s.data

/-- Content captured by `re.search(r"<tag>(.*?)</tag>", s, re.DOTALL)`.
The pattern's match starts at the first occurrence of the open tag and the
lazy group ends at the first occurrence of the close tag after it.  (Because
the close tag starts with `</` and the open tag contains no second `<`, no
close tag can begin strictly inside an open tag, so if no close tag follows
the first open tag the whole search fails, exactly as the regex does.) -/
def extract_tag (openT closeT : String) (s : String) : Option String :=
  match findSub openT.data s.data with
  | none => none
  | some i =>
    let afterOpen := s.data.drop (i + openT.data.length)
    match findSub closeT.data afterOpen with
    | none => none
    | some j => some (String.mk (afterOpen.take j))

/-- `parse_suggested_command`: command wrapped in `<command>` tags, `None` if
the tags are absent. -/
def parse_suggested_command (llm_output : String) : Option String :=
  (extract_tag "<command>" "</command>" llm_output).map py_strip

/-- `parse_llm_thought`. -/
def parse_llm_thought (llm_output : String) : String :=
  match extract_tag "<think>" "</think>" llm_output with
  | some c => py_strip c
  | none => ""

/-- `parse_llm_plan`: plan from `<checklist>` tags, `""` when absent. -/
def parse_llm_plan (llm_output : String) : String :=
  match extract_tag "<checklist>" "</checklist>" llm_output with
  | some c => py_strip c
  | none => ""

/-- `parse_llm_instruction`: instruction from `<instruction>` tags. -/
def parse_llm_instruction (llm_output : String) : String :=
  match extract_tag "<instruction>" "</instruction>" llm_output with
  | some c => py_strip c
  | none => ""

/-- `parse_llm_decision`: decision from `<decision>` tags. -/
def parse_llm_decision (llm_output : String) : String :=
  match extract_tag "<decision>" "</decision>" llm_output with
  | some c => py_strip c
  | none => ""

/-- `parse_llm_summary`: summary from `<summary>` tags. -/
def parse_llm_summary (llm_output : String) : String :=
  match extract_tag "<summary>" "</summary>" llm_output with
  | some c => py_strip c
  | none => ""

/-- `parse_definition_of_done`. -/
def parse_definition_of_done (llm_output : String) : String :=
  match extract_tag "<definition_of_done>" "</definition_of_done>" llm_output with
  | some c => py_strip c
  | none => ""

/-- `extract_decision_type_and_message`: split the decision text on the first
colon (Python `decision_text.split(":", 1)`) and strip both halves; with no
colon the whole stripped text is the type and the message is empty. -/
def extract_decision_type_and_message (decision_text : String) : String × String :=
  if decision_text = "" then ("", "")
  else
    match findSub [':'] decision_text.data with
    | none => (py_strip decision_text, "")
    | some i =>
      (py_strip (String.mk (decision_text.data.take i)),
        py_strip (String.mk (decision_text.data.drop (i + 1))))

/-! ## Context compactor data model (`termaite/core/context_compactor.py`) -/

/-- The `ContextEntry` dataclass. -/
structure ContextEntry where
  type : String
  user_prompt : String
  llm_response : String
  timestamp : String
  original_user_prompt : String := ""
  is_plan : Bool := false
  is_original_request : Bool := false
  compaction_level : Nat := 0
deriving DecidableEq

instance : Inhabited ContextEntry :=
  ⟨{ type := "", user_prompt := "", llm_response := "", timestamp := "" }⟩

/-- The collaborators `ContextCompactor` calls for a summary: payload
preparation (`payload_builder.prepare_payload("simple", prompt)`, falsy result
means failure) and the LLM transport (`llm_client.send_request`, an empty
string models a falsy/absent response). -/
structure LLMEnv where
  prep : String → Bool
  send : String → String

/-- `estimate_token_count`: one token per four characters. -/
def estimate_token_count (text : String) : Nat :=
  text.length / 4

/-- The total the compactor sums in `should_compact_context` (and that §8 of
the specification calls the "total estimated tokens" of a sequence). -/
def total_estimated_tokens (context_entries : List ContextEntry) : Nat :=
  (context_entries.map fun e => estimate_token_count (e.user_prompt ++ e.llm_response)).sum

/-- `should_compact_context`.  The threshold `int(max_context_tokens * 0.75)`
is computed in floats in the source; for every context size that fits in a
64-bit float mantissa this equals `max_context_tokens * 3 / 4` in integer
arithmetic, which is how it is modelled. -/
def should_compact_context (max_context_tokens : Nat) (context_entries : List ContextEntry) : Bool :=
  total_estimated_tokens context_entries > max_context_tokens * 3 / 4

/-- The `"User: ...\nAssistant: ..."` text both `create_context_summary` and
`compact_context_segment` build from the entries they are given. -/
def build_context_text (entries : List ContextEntry) : String :=
  String.intercalate "\n"
    (entries.flatMap fun e => ["User: " ++ e.user_prompt, "Assistant: " ++ e.llm_response])

/-- The `summary_prompt.format(context=...)` template of
`create_context_summary`. -/
def summary_prompt_text (context : String) : String :=
  "\n        You are a context summarizer. Create a single detailed paragraph that summarizes the following historical conversation context. Focus on:\n        - Key decisions and outcomes that were reached\n        - Important context that may be relevant for future actions\n        - Any significant errors or successes\n        - The general flow and progression of the conversation\n        \n        Write this as ONE cohesive paragraph that captures the essential information from this historical context.\n        \n        Historical context to summarize:\n        " ++ context ++ "\n        \n        Summary paragraph:\n        "

/-- The `self.compact_prompt` template (target about 50% of the length). -/
def compact_prompt_text (context : String) : String :=
  "\n        You are a context compactor. Summarize the following conversation history into a more concise form while preserving:\n        - Key decisions and outcomes\n        - Important context for future actions\n        - The flow of the conversation\n        - Any error messages or important results\n        \n        Make it about 50% of the original length.\n        \n        Context to compact:\n        " ++ context ++ "\n        \n        Provide a compact summary:\n        "

/-- The `self.very_compact_prompt` template (target about 25% of the length). -/
def very_compact_prompt_text (context : String) : String :=
  "\n        You are a context compactor. Create a very brief summary of the following context, preserving only:\n        - Essential outcomes and decisions\n        - Critical context needed for task completion\n        - Major errors or successes\n        \n        Make it about 25% of the original length.\n        \n        Context to compact:\n        " ++ context ++ "\n        \n        Provide a very compact summary:\n        "

/-- `create_context_summary`: summarize `entries` into one paragraph via the
LLM.  On payload failure or missing response it returns a fixed placeholder
string naming the number of entries; it does NOT return the original text. -/
def create_context_summary (env : LLMEnv) (entries : List ContextEntry) : String :=
  if entries = [] then ""
  else
    let context_text := build_context_text entries
    let prompt := summary_prompt_text context_text
    if ¬ env.prep prompt then
      "[Summary of " ++ toString entries.length ++ " historical entries - LLM unavailable]"
    else
      let response := env.send prompt
      if response = "" then
        "[Summary of " ++ toString entries.length ++ " historical entries - LLM failed]"
      else response

/-- `compact_context_segment`: compact a segment via the LLM, choosing the
prompt by `compaction_level` (1 = compact, otherwise very compact).  On
payload failure or missing response it returns the original `context_text`. -/
def compact_context_segment (env : LLMEnv) (entries : List ContextEntry) (compaction_level : Nat) : String :=
  if entries = [] then ""
  else
    let context_text := build_context_text entries
    let prompt :=
      if compaction_level = 1 then compact_prompt_text context_text
      else very_compact_prompt_text context_text
    if ¬ env.prep prompt then context_text
    else
      let response := env.send prompt
      if response = "" then context_text
      else response

/-- Greatest index of `entries` whose entry satisfies `p`: the
`for i, entry in reversed(list(enumerate(context_entries))) ... break`
search loops of `compact_context`. -/
def find_last_index (p : ContextEntry → Bool) (entries : List ContextEntry) : Option Nat :=
  ((List.range entries.length).filter fun i => p (entries.getD i default)).getLast?

/-- Index of the latest plan entry (`-1`, here `none`, when there is none). -/
def latest_plan_index (context_entries : List ContextEntry) : Option Nat :=
  find_last_index (fun e => e.is_plan) context_entries

/-- Index of the most recent entry whose prompt contains the current user
prompt verbatim.  The search only runs when `current_user_prompt` is truthy
(neither `None` nor the empty string), as in `if current_user_prompt:`. -/
def current_prompt_index (context_entries : List ContextEntry) : Option String → Option Nat
  | none => none
  | some p =>
    if p = "" then none
    else find_last_index (fun e => containsSub p.data e.user_prompt.data) context_entries

/-- `compactable_indices`: every index other than the preserved latest-plan
index and the preserved current-prompt index. -/
def compactable_indices (context_entries : List ContextEntry) (current_user_prompt : Option String) : List Nat :=
  (List.range context_entries.length).filter fun i =>
    latest_plan_index context_entries ≠ some i ∧
    current_prompt_index context_entries current_user_prompt ≠ some i

/-- `indices_to_compact`: the oldest `len(compactable) // 2` compactable
indices.  (`compactable_indices` is ascending, so taking the prefix is the
source's `compactable_indices[:num_to_compact]`; the source then wraps them
in a `set`, and `sorted(list(...))` of that set is this same list.) -/
def indices_to_compact (context_entries : List ContextEntry) (current_user_prompt : Option String) : List Nat :=
  let c := compactable_indices context_entries current_user_prompt
  c.take (c.length / 2)

/-- `entries_to_summarize`: the entries at the (ascending) indices selected
for compaction. -/
def entries_to_summarize (context_entries : List ContextEntry) (current_user_prompt : Option String) : List ContextEntry :=
  (indices_to_compact context_entries current_user_prompt).map fun i =>
    context_entries.getD i default

/-- The single summary entry `compact_context` creates: type `compacted`,
the fixed historical-summary prompt, the LLM summary as response, the first
summarized entry's timestamp, `compaction_level = 1`. -/
def summary_entry (env : LLMEnv) (context_entries : List ContextEntry) (current_user_prompt : Option String) : ContextEntry :=
  { type := "compacted"
    user_prompt := "[HISTORICAL CONTEXT SUMMARY]"
    llm_response := create_context_summary env (entries_to_summarize context_entries current_user_prompt)
    timestamp := ((entries_to_summarize context_entries current_user_prompt).headD default).timestamp
    compaction_level := 1 }

/-- The `current_prompt` marker entry appended when the live prompt matched
no existing entry. -/
def current_prompt_entry (p : String) : ContextEntry :=
  { type := "current_prompt"
    user_prompt := p
    llm_response := "[CURRENT TASK]"
    timestamp := ""
    is_original_request := false
    is_plan := false }

/-- The rebuild loop of `compact_context`: walk the entries with their index;
at an index selected for compaction emit the summary once (first time only),
at any other index keep the entry. -/
def rebuild_go (summary : ContextEntry) (S : List Nat) : Nat → Bool → List ContextEntry → List ContextEntry
  | _, _, [] => []
  | i, inserted, e :: rest =>
    if i ∈ S then
      if inserted then rebuild_go summary S (i + 1) true rest
      else summary :: rebuild_go summary S (i + 1) true rest
    else e :: rebuild_go summary S (i + 1) inserted rest

/-- The trailing `if current_user_prompt and current_prompt_index == -1:`
append block of `compact_context`, as the list it appends. -/
def current_prompt_append (context_entries : List ContextEntry) (current_user_prompt : Option String) : List ContextEntry :=
  match current_user_prompt with
  | none => []
  | some p =>
    if p ≠ "" ∧ current_prompt_index context_entries (some p) = none then [current_prompt_entry p]
    else []

/-- `compact_context`: progressive compaction.  No-op when the size check
fails, when fewer than two compactable entries exist, or when the selection
is empty; otherwise replace the selected oldest half with one summary entry
and append a fresh current-prompt marker when the live prompt was unmatched. -/
def compact_context (max_context_tokens : Nat) (env : LLMEnv) (context_entries : List ContextEntry) (current_user_prompt : Option String) : List ContextEntry :=
  if ¬ should_compact_context max_context_tokens context_entries then context_entries
  else if (compactable_indices context_entries current_user_prompt).length < 2 then context_entries
  else if indices_to_compact context_entries current_user_prompt = [] then context_entries
  else
    rebuild_go (summary_entry env context_entries current_user_prompt)
        (indices_to_compact context_entries current_user_prompt) 0 false context_entries
      ++ current_prompt_append context_entries current_user_prompt

/-- Specification-side helper: the entries of `l` whose absolute index
(position plus offset `i`) is NOT in `S`, in order. -/
def filterIdx (S : List Nat) : Nat → List ContextEntry → List ContextEntry
  | _, [] => []
  | i, e :: rest =>
    if i ∈ S then filterIdx S (i + 1) rest
    else e :: filterIdx S (i + 1) rest

/-- Specification-side helper: the entries of `l` whose absolute index IS in
`S`, in order. -/
def pickIdx (S : List Nat) : Nat → List ContextEntry → List ContextEntry
  | _, [] => []
  | i, e :: rest =>
    if i ∈ S then e :: pickIdx S (i + 1) rest
    else pickIdx S (i + 1) rest

/-! ## Durable session store (`parse_context_entries` / `save_compacted_context`) -/

/-- One raw entry of `context.json` as `save_compacted_context` writes it and
`parse_context_entries` reads it.  `llm_full_response` holds the `response`
field of the stored response object (the writer always emits the object with
exactly that single field); `none` models the key being absent. -/
structure StoredEntry where
  type : String
  user_prompt : String
  llm_full_response : Option String
  llm_error_message : Option String
  timestamp : String
  compaction_level : Option Nat
deriving DecidableEq

/-- The per-entry JSON conversion of `save_compacted_context`: `compacted`
entries additionally carry their `compaction_level`. -/
def entry_to_json (e : ContextEntry) : StoredEntry :=
  if e.type = "compacted" then
    { type := "compacted"
      user_prompt := e.user_prompt
      llm_full_response := some e.llm_response
      llm_error_message := none
      timestamp := e.timestamp
      compaction_level := some e.compaction_level }
  else
    { type := e.type
      user_prompt := e.user_prompt
      llm_full_response := some e.llm_response
      llm_error_message := none
      timestamp := e.timestamp
      compaction_level := none }

/-- `context_data[pwd_hash] = json_entries`: set a key of the store. -/
def set_store (store : List (String × List StoredEntry)) (key : String) (v : List StoredEntry) : List (String × List StoredEntry) :=
  if (store.lookup key).isSome then
    store.map fun kv => if kv.1 = key then (key, v) else kv
  else store ++ [(key, v)]

/-- `save_compacted_context` (its pure core): convert the entries to their
JSON form and overwrite the session record for `pwd_hash`. -/
def save_compacted_context (store : List (String × List StoredEntry)) (context_entries : List ContextEntry) (pwd_hash : String) : List (String × List StoredEntry) :=
  set_store store pwd_hash (context_entries.map entry_to_json)

/-- The per-entry parse of `parse_context_entries`: the response text is read
from `llm_full_response` only for entries of type `success` (with the Python
`or`-chain falling through to `str(response)` when the `response` field is
falsy); every other entry gets `llm_error_message` or `"Error occurred"`.
`is_plan` is re-derived from the text and `compaction_level` is always 0. -/
def parse_stored_entry (i : Nat) (entry : StoredEntry) : ContextEntry :=
  let llm_response :=
    match entry.llm_full_response with
    | some r =>
      if entry.type = "success" then
        if r ≠ "" then r else "\x7b'response': ''\x7d"
      else entry.llm_error_message.getD "Error occurred"
    | none => entry.llm_error_message.getD "Error occurred"
  { type := entry.type
    user_prompt := entry.user_prompt
    llm_response := llm_response
    timestamp := entry.timestamp
    is_original_request := i == 0
    is_plan := containsSub "plan".data (py_lower entry.user_prompt).data
      || containsSub "checklist".data (py_lower llm_response).data
    compaction_level := 0 }

/-- `parse_context_entries`: an absent session key yields `[]`; otherwise
each stored entry is parsed with its position (index 0 marks the original
request). -/
def parse_context_entries (context_data : List (String × List StoredEntry)) (pwd_hash : String) : List ContextEntry :=
  match context_data.lookup pwd_hash with
  | none => []
  | some session_entries => session_entries.enum.map fun ie => parse_stored_entry ie.1 ie.2

/-! ## Task handler (`termaite/core/task_handler.py`) -/

/-- `TaskStatus`. -/
inductive TaskStatus where
  | IN_PROGRESS
  | COMPLETED
  | FAILED
  | CANCELLED
deriving DecidableEq

/-- `TaskState` (the dataclass, with its defaults). -/
structure TaskState where
  current_plan : String := ""
  current_instruction : String := ""
  plan_array : List String := []
  step_index : Nat := 0
  last_action_taken : String := ""
  last_action_result : String := ""
  user_clarification : String := ""
  last_eval_decision : String := ""
  iteration : Nat := 0
  definition_of_done : String := ""
  planner_summary : String := ""
  actor_summary : String := ""
  evaluator_summary : String := ""
deriving DecidableEq

instance : Inhabited TaskState := ⟨{}⟩

/-- Result of `command_executor.execute`. -/
structure ExecResult where
  exit_code : Int
  output : String
deriving DecidableEq

/-- The tail of `_handle_command_suggestion` guarded by `if allowed:`: in
normal mode ask the interactive yes/no confirmation first (any answer whose
lowercase form differs from `y` cancels, recording a non-fatal action
result); then run the command and record its exit code and output. -/
def run_allowed_command (operation_mode : String) (confirm_input : String) (execute : String → ExecResult) (command : String) (state : TaskState) : TaskStatus × TaskState :=
  if operation_mode = "normal" ∧ py_lower confirm_input ≠ "y" then
    (TaskStatus.IN_PROGRESS,
      { state with
        last_action_taken := "Command '" ++ command ++ "' cancelled by user"
        last_action_result := "User cancelled at confirmation" })
  else
    let result := execute command
    (TaskStatus.IN_PROGRESS,
      { state with
        last_action_taken := "Executed command: " ++ command
        last_action_result := "Exit Code: " ++ toString result.exit_code ++ ". Output:\n"
          ++ (if result.output ≠ "" then result.output else "(no output)") })

/-- `_handle_command_suggestion`.  `permission_check` models
`permission_manager.check_command_permission(command, operation_mode)` and
`prompt_for_permission` models the gremlin-mode dynamic prompt (`0` allow
once, `2` cancel the whole task, anything else deny).  The Python function
falls through its `if not allowed:` block and then runs the `if allowed:`
tail, which the branches below reproduce mode by mode. -/
def handle_command_suggestion (operation_mode : String) (permission_check : String → String → Bool × String) (prompt_for_permission : String → Int × String) (confirm_input : String) (execute : String → ExecResult) (command : String) (state : TaskState) : TaskStatus × TaskState :=
  if command = "report_task_completion" then
    (TaskStatus.IN_PROGRESS,
      { state with
        last_action_taken := "Internal signal: report_task_completion"
        last_action_result := "Action Agent determined task is complete and signaled Evaluator." })
  else
    let checked := permission_check command operation_mode
    if checked.1 then
      run_allowed_command operation_mode confirm_input execute command state
    else if operation_mode = "normal" then
      (TaskStatus.IN_PROGRESS,
        { state with
          last_action_taken := "Command '" ++ command ++ "' not executed."
          last_action_result := "Command blocked: " ++ checked.2 })
    else if operation_mode = "gremlin" then
      let prompted := prompt_for_permission command
      if prompted.1 = 0 then
        run_allowed_command operation_mode confirm_input execute command state
      else if prompted.1 = 2 then
        (TaskStatus.CANCELLED, state)
      else
        (TaskStatus.IN_PROGRESS,
          { state with
            last_action_taken := "Command '" ++ command ++ "' denied by user"
            last_action_result := "User denied permission: " ++ prompted.2 })
    else if operation_mode = "goblin" then
      run_allowed_command operation_mode confirm_input execute command state
    else
      (TaskStatus.IN_PROGRESS, state)

/-- `_process_evaluation_decision`: route the evaluator's decision.  Returns
the next task status, the next context string and the updated state.
`allow_clarifying_questions` is `config.get("allow_clarifying_questions",
True)` and `user_input` is the line read by `input()` in the `CLARIFY_USER`
branch. -/
def process_evaluation_decision (allow_clarifying_questions : Bool) (user_input : String) (decision_type message : String) (state : TaskState) (original_prompt : String) : TaskStatus × String × TaskState :=
  if decision_type = "TASK_COMPLETE" then
    (TaskStatus.COMPLETED, "", state)
  else if decision_type = "TASK_FAILED" then
    (TaskStatus.FAILED, "", state)
  else if decision_type = "CONTINUE_PLAN" then
    let st := { state with step_index := state.step_index + 1 }
    let next_context :=
      "Original request: '" ++ original_prompt ++ "'.\n"
        ++ "Current plan:\n" ++ st.current_plan ++ "\n"
        ++ "Previous instruction ('" ++ st.current_instruction ++ "') was completed successfully.\n"
        ++ "Result: '" ++ st.last_action_result ++ "'.\n"
        ++ "Evaluator says: '" ++ message ++ "'.\n"
        ++ "Provide the next instruction from the plan for step " ++ toString (st.step_index + 1) ++ "."
    (TaskStatus.IN_PROGRESS, next_context, { st with user_clarification := "" })
  else if decision_type = "REVISE_PLAN" then
    let next_context :=
      "Original request: '" ++ state.current_instruction ++ "'.\n"
        ++ "Prev plan:\n" ++ state.current_plan ++ "\n"
        ++ "Prev instruction ('" ++ state.current_instruction ++ "') result: '" ++ state.last_action_result ++ "'.\n"
        ++ "Evaluator suggests revision: '" ++ message ++ "'.\n"
        ++ "Revise checklist and provide new first instruction."
    (TaskStatus.IN_PROGRESS, next_context,
      { state with current_plan := "", current_instruction := "", user_clarification := "" })
  else if decision_type = "CLARIFY_USER" then
    if allow_clarifying_questions then
      let next_context :=
        "Original request: '" ++ state.current_instruction ++ "'.\n"
          ++ "After action '" ++ state.last_action_taken ++ "' (result: '" ++ state.last_action_result ++ "'), "
          ++ "evaluator needs clarification. Question: '" ++ message ++ "'.\n"
          ++ "User's answer: '" ++ user_input ++ "'.\n"
          ++ "Revise plan/next instruction based on this."
      (TaskStatus.IN_PROGRESS, next_context,
        { state with user_clarification := user_input, current_plan := "", current_instruction := "" })
    else
      (TaskStatus.FAILED, "", state)
  else if decision_type = "VERIFY_ACTION" then
    let verification_context :=
      "Original request: '" ++ state.current_instruction ++ "'.\n"
        ++ "Previous action: '" ++ state.last_action_taken ++ "' (result: '" ++ state.last_action_result ++ "').\n"
        ++ "Evaluator needs verification. Execute this command to verify the outcome: " ++ message
    (TaskStatus.IN_PROGRESS, verification_context,
      { state with
        current_instruction := "Execute verification command: " ++ message
        user_clarification := "" })
  else
    (TaskStatus.FAILED, "", state)

/-! ## Plan phase (`_execute_plan_phase`) -/

/-- Collaborators of the plan phase: the clarifying-questions switch, payload
preparation for a given context, the LLM transport (empty string = falsy
response) and the interactive clarification answer. -/
structure PlanEnv where
  allow_clarifying_questions : Bool
  prep : String → Bool
  send : String → String
  user_input : String

/-- Python `str.splitlines` on the characters of a string (handles `\n`,
`\r\n` and `\r`; a trailing terminator does not create an empty final line). -/
def py_splitlines_go (cur : List Char) : List Char → List (List Char)
  | [] => [cur.reverse]
  | '\r' :: '\n' :: rest =>
    if rest.isEmpty then [cur.reverse] else cur.reverse :: py_splitlines_go [] rest
  | '\n' :: rest =>
    if rest.isEmpty then [cur.reverse] else cur.reverse :: py_splitlines_go [] rest
  | '\r' :: rest =>
    if rest.isEmpty then [cur.reverse] else cur.reverse :: py_splitlines_go [] rest
  | c :: rest => py_splitlines_go (c :: cur) rest

/-- Python `str.splitlines`. -/
def py_splitlines (s : String) : List String :=
  if s.data.isEmpty then []
  else (py_splitlines_go [] s.data).map String.mk

/-- The `plan_array` computation: non-empty stripped lines of the plan. -/
def plan_lines (plan : String) : List String :=
  ((py_splitlines plan).map py_strip).filter fun line => line ≠ ""

/-- The corrective text for a response missing the checklist tag. -/
def checklist_missing_msg : String :=
  "Response did not contain a valid `<checklist>...</checklist>` block."

/-- The corrective text for a response missing the instruction tag. -/
def instruction_missing_msg : String :=
  "Response did not contain a valid `<instruction>...</instruction>` block."

/-- The fixed text of the `<correction_request>` template before the
`<details>` error message. -/
def plan_correction_lead : String :=
  "<correction_request>\n<error>\n<type>Invalid Response Format</type>\n<message>Your previous response was malformed and did not follow the required structure.</message>\n<details>"

/-- The fixed text of the `<correction_request>` template after the error
message, wrapping the original context. -/
def plan_correction_suffix (context : String) : String :=
  "</details>\n</error>\n<instruction>\nYou MUST correct your output. Your response MUST contain BOTH a `<checklist>...</checklist>` block AND an `<instruction>...</instruction>` block. This is not optional. Failure to comply will result in task termination.\n</instruction>\n<original_context>\n"
    ++ context
    ++ "\n</original_context>\n</correction_request>"

/-- The `<correction_request>` context the plan phase retries with after a
malformed response. -/
def plan_correction_context (error_message context : String) : String :=
  plan_correction_lead ++ error_message ++ plan_correction_suffix context

/-- The retry context used when the planner asked a clarifying question while
questions are disabled. -/
def clarify_disabled_context (context : String) : String :=
  context ++ "\n\nPREVIOUS ATTEMPT FAILED. Your last response requested user clarification, which is disabled. Please generate a plan without asking questions."

/-- `_execute_plan_phase` as a fuel-indexed loop, instrumented with the list
of LLM calls made as `(attempt number, payload context)` pairs.  The result
is `none` when the fuel ran out with the retry loop still going (the source
loop is unbounded).  Each iteration mirrors the source: prepare the payload
(failure is fatal), send to the LLM (falsy response is fatal), honour a
`CLARIFY_USER:` decision (suspend when clarification is enabled, retry with
corrective context otherwise), then accept when both the checklist and the
instruction parsed non-empty, and otherwise retry with the
`<correction_request>` context naming exactly the missing tags. -/
def plan_phase_run (env : PlanEnv) : Nat → Nat → String → TaskState → Option (TaskStatus × TaskState) × List (Nat × String)
  | 0, _, _, _ => (none, [])
  | fuel + 1, attempt, context, state =>
    let a := attempt + 1
    if ¬ env.prep context then (some (TaskStatus.FAILED, state), [])
    else
      let response := env.send context
      if response = "" then (some (TaskStatus.FAILED, state), [(a, context)])
      else
        let decision := parse_llm_decision response
        if py_startsWith decision "CLARIFY_USER:" then
          if env.allow_clarifying_questions then
            (some (TaskStatus.IN_PROGRESS,
              { state with
                user_clarification := env.user_input
                last_eval_decision := "PLANNER_CLARIFY"
                current_plan := "" }), [(a, context)])
          else
            let rec_result := plan_phase_run env fuel a (clarify_disabled_context context) state
            (rec_result.1, (a, context) :: rec_result.2)
        else
          let plan := parse_llm_plan response
          let instruction := parse_llm_instruction response
          let st := { state with
            current_plan := plan
            current_instruction := instruction
            planner_summary := parse_llm_summary response
            definition_of_done := parse_definition_of_done response }
          if plan ≠ "" ∧ instruction ≠ "" then
            (some (TaskStatus.IN_PROGRESS,
              { st with
                plan_array := plan_lines plan
                step_index := 0
                user_clarification := ""
                last_eval_decision := "" }), [(a, context)])
          else
            let error_message :=
              String.intercalate " "
                ((if plan = "" then [checklist_missing_msg] else [])
                  ++ (if instruction = "" then [instruction_missing_msg] else []))
            let rec_result := plan_phase_run env fuel a (plan_correction_context error_message context) st
            (rec_result.1, (a, context) :: rec_result.2)

/-! ## Concrete instances used in counterexamples and witnesses -/

/-- An `LLMEnv` whose transport always succeeds with a fixed short summary. -/
def okEnv : LLMEnv := ⟨fun _ => true, fun _ => "SUMMARY"⟩

/-- An `LLMEnv` whose payload preparation always fails. -/
def failEnv : LLMEnv := ⟨fun _ => false, fun _ => ""⟩

/-- A generic `success` entry with the given texts. -/
def mkEntry (p r : String) : ContextEntry :=
  { type := "success", user_prompt := p, llm_response := r, timestamp := "t" }

/-- The scenario-2 filler entry: 100-character prompt, 100-character response. -/
def c8_base : ContextEntry :=
  mkEntry (String.mk (List.replicate 100 'a')) (String.mk (List.replicate 100 'b'))

/-- The scenario-2 entry matched by the current prompt `"Q"` (still 200
characters of text in total). -/
def c8_prompt_entry : ContextEntry :=
  mkEntry (String.mk ('Q' :: List.replicate 99 'a')) (String.mk (List.replicate 100 'b'))

/-- The scenario-2 latest-plan entry (200 characters of text). -/
def c8_plan_entry : ContextEntry :=
  { mkEntry (String.mk (List.replicate 100 'a')) (String.mk (List.replicate 100 'b')) with
    is_plan := true }

/-- Scenario 2 of §8: 40 entries of 200 characters each, exactly one latest
plan entry and one (distinct) entry containing the current prompt. -/
def c8_entries : List ContextEntry :=
  List.replicate 38 c8_base ++ [c8_prompt_entry, c8_plan_entry]

/-- A small entry (8 characters of text) for the token-growth counterexample. -/
def c5_entry : ContextEntry := mkEntry "aaaa" "bbbb"

/-- Three small entries; over budget 2 they must compact. -/
def c5_entries : List ContextEntry := [c5_entry, c5_entry, c5_entry]

/-- An `LLMEnv` returning a 400-character summary, far larger than the entries
it summarizes. -/
def c5_bigEnv : LLMEnv := ⟨fun _ => true, fun _ => String.mk (List.replicate 400 'z')⟩

/-- A 40-character entry used in the witness of the amended token bound. -/
def c5_wit_entry : ContextEntry :=
  mkEntry (String.mk (List.replicate 20 'a')) (String.mk (List.replicate 20 'b'))

/-- Four such entries. -/
def c5_wit_entries : List ContextEntry :=
  [c5_wit_entry, c5_wit_entry, c5_wit_entry, c5_wit_entry]

/-- An `LLMEnv` answering with the one-character summary `"s"`. -/
def c5_smallEnv : LLMEnv := ⟨fun _ => true, fun _ => "s"⟩

/-- A compacted summary entry as `compact_context` creates it, used for the
storage round-trip. -/
def c2_entry : ContextEntry :=
  { type := "compacted"
    user_prompt := "[HISTORICAL CONTEXT SUMMARY]"
    llm_response := "Earlier the user created foo.txt"
    timestamp := "2024-01-01"
    compaction_level := 1 }

/-- A plain entry for the summary-failure counterexample. -/
def c3_entry : ContextEntry := mkEntry "p0" "r0"

/-- Three of them: enough that a compaction pass summarizes exactly one. -/
def c3_entries : List ContextEntry := [c3_entry, c3_entry, c3_entry]

/-- A plan entry whose prompt and response are non-empty. -/
def c9_plan_entry : ContextEntry :=
  { mkEntry "make a plan now ok" "resp" with is_plan := true }

/-- An entry matched by the current prompt `"x"`. -/
def c9_prompt_entry : ContextEntry := mkEntry "x" "resp"

/-- Two entries, both preserved: no compactable entry remains. -/
def c9_entries : List ContextEntry := [c9_plan_entry, c9_prompt_entry]

/-- Four plain entries used by the rebuild-shape witness. -/
def c7_entries : List ContextEntry :=
  [mkEntry "p0" "r0", mkEntry "p1" "r1", mkEntry "p2" "r2", mkEntry "p3" "r3"]

/-- Entries for the preservation witness: a latest-plan entry at index 1 and
an entry containing the prompt `"zz"` at index 2. -/
def c6_entries : List ContextEntry :=
  [mkEntry "p0" "r0", { mkEntry "p1" "r1" with is_plan := true }, mkEntry "ask zz please" "r2"]

/-- A plan-phase response carrying a checklist and a clarifying question but
no instruction. -/
def c10_clarify_response : String :=
  "<checklist>1. step</checklist><decision>CLARIFY_USER: which one?</decision>"

/-- A plan-phase environment that always answers with
`c10_clarify_response`, clarifying questions enabled. -/
def c10_clarify_env : PlanEnv :=
  ⟨true, fun _ => true, fun _ => c10_clarify_response, "answer"⟩

/-- A plan-phase response with a checklist but no instruction and no
decision. -/
def c10_response : String := "<checklist>1. step</checklist>"

/-- An environment answering `c10_response` to the context `"CTX"` and an
arbitrary non-empty text to everything else. -/
def c10_env : PlanEnv :=
  ⟨true, fun _ => true, fun c => if c = "CTX" then c10_response else "x", "ans"⟩

/-- Permission checker that allows every command. -/
def c1_perm : String → String → Bool × String := fun _ _ => (true, "ok")

/-- Gremlin prompt collaborator (never reached in the normal-mode scenario). -/
def c1_prompt : String → Int × String := fun _ => (0, "")

/-- Executor returning exit code 0 (never reached when the user declines). -/
def c1_exec : String → ExecResult := fun _ => ⟨0, "out"⟩

/-! ## Helper lemmas about the compactor -/

theorem total_estimated_tokens_nil : total_estimated_tokens [] = 0 := rfl

theorem total_estimated_tokens_cons (e : ContextEntry) (l : List ContextEntry) :
    total_estimated_tokens (e :: l)
      = estimate_token_count (e.user_prompt ++ e.llm_response) + total_estimated_tokens l := by
  simp [total_estimated_tokens]

theorem total_estimated_tokens_append (a b : List ContextEntry) :
    total_estimated_tokens (a ++ b) = total_estimated_tokens a + total_estimated_tokens b := by
  simp [total_estimated_tokens]

theorem rebuild_go_of_inserted (s : ContextEntry) (S : List Nat) (l : List ContextEntry) :
    ∀ i : Nat, rebuild_go s S i true l = filterIdx S i l := by
  induction l with
  | nil => intro i; rfl
  | cons e rest ih =>
    intro i
    simp only [rebuild_go, filterIdx]
    split
    · exact ih (i + 1)
    · rw [ih (i + 1)]

theorem mem_rebuild_go (s : ContextEntry) (S : List Nat) (l : List ContextEntry) :
    ∀ (i0 : Nat) (b : Bool) (i : Nat) (hi : i < l.length),
      (i0 + i) ∉ S → l[i] ∈ rebuild_go s S i0 b l := by
  induction l with
  | nil => intro i0 b i hi; simp at hi
  | cons e rest ih =>
    intro i0 b i hi hS
    cases i with
    | zero =>
      have h0 : i0 ∉ S := by simpa using hS
      simp only [rebuild_go, if_neg h0]
      exact List.mem_cons_self _ _
    | succ i' =>
      have hi' : i' < rest.length := by simpa using hi
      have hS' : (i0 + 1) + i' ∉ S := by
        have heq : i0 + (i' + 1) = (i0 + 1) + i' := by omega
        rwa [heq] at hS
      have hg : (e :: rest)[i' + 1] = rest[i'] := List.getElem_cons_succ e rest i' hi
      rw [hg]
      simp only [rebuild_go]
      by_cases hmem : i0 ∈ S
      · rw [if_pos hmem]
        cases b with
        | true => exact ih (i0 + 1) true i' hi' hS'
        | false => exact List.mem_cons_of_mem _ (ih (i0 + 1) true i' hi' hS')
      · rw [if_neg hmem]
        exact List.mem_cons_of_mem _ (ih (i0 + 1) b i' hi' hS')

theorem rebuild_go_cons_min (s : ContextEntry) (j : Nat) (S' : List Nat)
    (hS' : ∀ k ∈ S', j < k) (l : List ContextEntry) :
    ∀ i : Nat, i ≤ j → j - i < l.length →
      rebuild_go s (j :: S') i false l
        = l.take (j - i) ++ s :: filterIdx (j :: S') (j + 1) (l.drop (j - i + 1)) := by
  induction l with
  | nil => intro i hij hlen; simp at hlen
  | cons e rest ih =>
    intro i hij hlen
    by_cases hij' : i = j
    · subst hij'
      have hmem : i ∈ i :: S' := List.mem_cons_self _ _
      simp only [rebuild_go, if_pos hmem]
      rw [rebuild_go_of_inserted]
      simp [Nat.sub_self]
    · have hlt : i < j := lt_of_le_of_ne hij hij'
      have hnot : i ∉ j :: S' := by
        intro hmem
        rcases List.mem_cons.mp hmem with h | h
        · omega
        · exact absurd (hS' _ h) (by omega)
      simp only [rebuild_go, if_neg hnot]
      rw [ih (i + 1) (by omega) (by simp at hlen ⊢; omega)]
      have h1 : j - i = (j - (i + 1)) + 1 := by omega
      rw [h1, List.take_succ_cons]
      have h2 : (j - (i + 1)) + 1 + 1 = ((j - (i + 1)) + 1) + 1 := rfl
      rw [h2, List.drop_succ_cons]
      simp

theorem filterIdx_cons_min (j : Nat) (S' : List Nat)
    (hS' : ∀ k ∈ S', j < k) (l : List ContextEntry) :
    ∀ i : Nat, i ≤ j → j - i < l.length →
      filterIdx (j :: S') i l
        = l.take (j - i) ++ filterIdx (j :: S') (j + 1) (l.drop (j - i + 1)) := by
  induction l with
  | nil => intro i hij hlen; simp at hlen
  | cons e rest ih =>
    intro i hij hlen
    by_cases hij' : i = j
    · subst hij'
      have hmem : i ∈ i :: S' := List.mem_cons_self _ _
      simp only [filterIdx, if_pos hmem]
      simp [Nat.sub_self]
    · have hlt : i < j := lt_of_le_of_ne hij hij'
      have hnot : i ∉ j :: S' := by
        intro hmem
        rcases List.mem_cons.mp hmem with h | h
        · omega
        · exact absurd (hS' _ h) (by omega)
      simp only [filterIdx, if_neg hnot]
      rw [ih (i + 1) (by omega) (by simp at hlen ⊢; omega)]
      have h1 : j - i = (j - (i + 1)) + 1 := by omega
      rw [h1, List.take_succ_cons]
      have h2 : (j - (i + 1)) + 1 + 1 = ((j - (i + 1)) + 1) + 1 := rfl
      rw [h2, List.drop_succ_cons]
      simp

theorem pickIdx_nil_S (l : List ContextEntry) : ∀ i : Nat, pickIdx [] i l = [] := by
  induction l with
  | nil => intro i; rfl
  | cons e rest ih =>
    intro i
    simp only [pickIdx, List.not_mem_nil, if_neg (fun h => h)]
    exact ih (i + 1)

theorem pickIdx_drop_head (k : Nat) (S' : List Nat) (l : List ContextEntry) :
    ∀ i : Nat, k < i → pickIdx (k :: S') i l = pickIdx S' i l := by
  induction l with
  | nil => intro i _; rfl
  | cons e rest ih =>
    intro i hki
    have hiff : (i ∈ k :: S') ↔ i ∈ S' := by
      constructor
      · intro h
        rcases List.mem_cons.mp h with h | h
        · omega
        · exact h
      · exact fun h => List.mem_cons_of_mem _ h
    simp only [pickIdx]
    by_cases h : i ∈ S'
    · rw [if_pos (hiff.mpr h), if_pos h, ih (i + 1) (by omega)]
    · rw [if_neg (fun hc => h (hiff.mp hc)), if_neg h, ih (i + 1) (by omega)]

theorem pickIdx_cons_min (j : Nat) (S' : List Nat)
    (hS' : ∀ m ∈ S', j < m) (l : List ContextEntry) :
    ∀ i : Nat, i ≤ j → j - i < l.length →
      pickIdx (j :: S') i l
        = l.getD (j - i) default :: pickIdx S' (j + 1) (l.drop (j - i + 1)) := by
  induction l with
  | nil => intro i hij hlen; simp at hlen
  | cons e rest ih =>
    intro i hij hlen
    by_cases hij' : i = j
    · subst hij'
      have hmem : i ∈ i :: S' := List.mem_cons_self _ _
      simp only [pickIdx, if_pos hmem]
      rw [pickIdx_drop_head i S' rest (i + 1) (by omega)]
      simp [Nat.sub_self]
    · have hlt : i < j := lt_of_le_of_ne hij hij'
      have hnot : i ∉ j :: S' := by
        intro hmem
        rcases List.mem_cons.mp hmem with h | h
        · omega
        · exact absurd (hS' _ h) (by omega)
      simp only [pickIdx, if_neg hnot]
      rw [ih (i + 1) (by omega) (by simp at hlen ⊢; omega)]
      have h1 : j - i = (j - (i + 1)) + 1 := by omega
      rw [h1]
      have h2 : (j - (i + 1)) + 1 + 1 = ((j - (i + 1)) + 1) + 1 := rfl
      rw [h2, List.drop_succ_cons]
      simp [List.getD_cons_succ]

theorem total_filter_pick (S : List Nat) (l : List ContextEntry) :
    ∀ i : Nat,
      total_estimated_tokens (filterIdx S i l) + total_estimated_tokens (pickIdx S i l)
        = total_estimated_tokens l := by
  induction l with
  | nil => intro i; rfl
  | cons e rest ih =>
    intro i
    simp only [filterIdx, pickIdx]
    by_cases h : i ∈ S
    · rw [if_pos h, if_pos h, total_estimated_tokens_cons, total_estimated_tokens_cons]
      have := ih (i + 1)
      omega
    · rw [if_neg h, if_neg h, total_estimated_tokens_cons, total_estimated_tokens_cons]
      have := ih (i + 1)
      omega

theorem pickIdx_sorted (S : List Nat) :
    S.Pairwise (· < ·) →
    ∀ (l : List ContextEntry) (i0 : Nat),
      (∀ k ∈ S, i0 ≤ k ∧ k < i0 + l.length) →
      pickIdx S i0 l = S.map fun k => l.getD (k - i0) default := by
  induction S with
  | nil => intro _ l i0 _; simp [pickIdx_nil_S]
  | cons j S' ih =>
    intro hp l i0 hb
    have hS' : ∀ m ∈ S', j < m := fun m hm => List.rel_of_pairwise_cons hp hm
    have hj := hb j (List.mem_cons_self _ _)
    rw [pickIdx_cons_min j S' hS' l i0 hj.1 (by omega)]
    rw [ih hp.of_cons (l.drop (j - i0 + 1)) (j + 1) ?side]
    case side =>
      intro k hk
      have hbk := hb k (List.mem_cons_of_mem _ hk)
      have hjk := hS' k hk
      rw [List.length_drop]
      omega
    rw [List.map_cons]
    congr 1
    apply List.map_congr_left
    intro k hk
    have hbk := hb k (List.mem_cons_of_mem _ hk)
    have hjk := hS' k hk
    rw [List.getD_eq_getElem?_getD, List.getD_eq_getElem?_getD, List.getElem?_drop]
    have heq : (j - i0 + 1) + (k - (j + 1)) = k - i0 := by omega
    rw [heq]

theorem indices_to_compact_pairwise (entries : List ContextEntry) (cp : Option String) :
    (indices_to_compact entries cp).Pairwise (· < ·) :=
  List.Pairwise.sublist ((List.take_sublist _ _).trans (List.filter_sublist _))
    (List.pairwise_lt_range _)

theorem mem_indices_to_compact_lt (entries : List ContextEntry) (cp : Option String)
    (k : Nat) (h : k ∈ indices_to_compact entries cp) : k < entries.length := by
  have hc := List.take_subset _ _ h
  rcases List.mem_filter.mp hc with ⟨hr, _⟩
  exact List.mem_range.mp hr

theorem not_mem_indices_of_latest_plan (entries : List ContextEntry) (cp : Option String)
    (P : Nat) (h : latest_plan_index entries = some P) :
    P ∉ indices_to_compact entries cp := by
  intro hmem
  have hc : P ∈ compactable_indices entries cp := List.take_subset _ _ hmem
  rcases List.mem_filter.mp hc with ⟨_, hpred⟩
  exact (of_decide_eq_true hpred).1 h

theorem not_mem_indices_of_current_prompt (entries : List ContextEntry) (cp : Option String)
    (Q : Nat) (h : current_prompt_index entries cp = some Q) :
    Q ∉ indices_to_compact entries cp := by
  intro hmem
  have hc : Q ∈ compactable_indices entries cp := List.take_subset _ _ hmem
  rcases List.mem_filter.mp hc with ⟨_, hpred⟩
  exact (of_decide_eq_true hpred).2 h

theorem getLast?_eq_of_mem_of_max (l : List Nat) :
    l.Pairwise (· < ·) → ∀ P, P ∈ l → (∀ k ∈ l, k ≤ P) → l.getLast? = some P := by
  induction l with
  | nil => intro _ P hP _; simp at hP
  | cons a t ih =>
    intro hp P hP hmax
    cases t with
    | nil =>
      simp at hP
      simp [hP]
    | cons b t' =>
      rw [List.getLast?_cons_cons]
      apply ih hp.of_cons P ?mem ?max
      case mem =>
        rcases List.mem_cons.mp hP with h | h
        · exfalso
          have hab : a < b := List.rel_of_pairwise_cons hp (List.mem_cons_self _ _)
          have hb := hmax b (List.mem_cons_of_mem _ (List.mem_cons_self _ _))
          omega
        · exact h
      case max =>
        intro k hk
        exact hmax k (List.mem_cons_of_mem _ hk)

theorem find_last_index_eq (p : ContextEntry → Bool) (entries : List ContextEntry)
    (P : Nat) (hP : P < entries.length) (hp : p (entries.getD P default) = true)
    (hmax : ∀ k, P < k → k < entries.length → p (entries.getD k default) = false) :
    find_last_index p entries = some P := by
  unfold find_last_index
  apply getLast?_eq_of_mem_of_max
  · exact List.Pairwise.sublist (List.filter_sublist _) (List.pairwise_lt_range _)
  · exact List.mem_filter.mpr ⟨List.mem_range.mpr hP, hp⟩
  · intro k hk
    rcases List.mem_filter.mp hk with ⟨hkr, hpk⟩
    have hklen := List.mem_range.mp hkr
    by_contra hks
    push_neg at hks
    rw [hmax k hks hklen] at hpk
    simp at hpk

theorem length_indices_to_compact (entries : List ContextEntry) (cp : Option String) :
    (indices_to_compact entries cp).length
      = (compactable_indices entries cp).length / 2 := by
  unfold indices_to_compact
  rw [List.length_take, min_eq_left (Nat.div_le_self _ _)]

theorem indices_to_compact_ne_nil (entries : List ContextEntry) (cp : Option String)
    (h2 : 2 ≤ (compactable_indices entries cp).length) :
    indices_to_compact entries cp ≠ [] := by
  intro h
  have hl := length_indices_to_compact entries cp
  rw [h] at hl
  simp at hl
  omega

theorem compact_context_of_not_should (maxT : Nat) (env : LLMEnv)
    (entries : List ContextEntry) (cp : Option String)
    (h1 : ¬ should_compact_context maxT entries = true) :
    compact_context maxT env entries cp = entries := by
  unfold compact_context
  rw [if_pos h1]

theorem compact_context_main (maxT : Nat) (env : LLMEnv)
    (entries : List ContextEntry) (cp : Option String)
    (h1 : should_compact_context maxT entries = true)
    (h2 : 2 ≤ (compactable_indices entries cp).length) :
    compact_context maxT env entries cp
      = rebuild_go (summary_entry env entries cp) (indices_to_compact entries cp) 0 false entries
        ++ current_prompt_append entries cp := by
  unfold compact_context
  rw [if_neg (not_not_intro h1), if_neg (by omega), if_neg (indices_to_compact_ne_nil entries cp h2)]

theorem mem_compact_of_not_mem_indices (maxT : Nat) (env : LLMEnv)
    (entries : List ContextEntry) (cp : Option String)
    (i : Nat) (hi : i < entries.length) (h : i ∉ indices_to_compact entries cp) :
    entries[i] ∈ compact_context maxT env entries cp := by
  by_cases h1 : should_compact_context maxT entries = true
  · by_cases h2 : 2 ≤ (compactable_indices entries cp).length
    · rw [compact_context_main maxT env entries cp h1 h2]
      apply List.mem_append_left
      have h0 : (0 + i) ∉ indices_to_compact entries cp := by simpa using h
      exact mem_rebuild_go _ _ entries 0 false i hi h0
    · unfold compact_context
      rw [if_neg (not_not_intro h1), if_pos (by omega)]
      exact List.getElem_mem hi
  · rw [compact_context_of_not_should maxT env entries cp h1]
    exact List.getElem_mem hi

/-! ## Claim theorems -/

/-- C9: for every entry sequence on which `should_compact_context` is true,
if fewer than 2 indices remain after excluding the preserved latest-plan
index and the preserved current-prompt index, `compact_context` returns the
input sequence unchanged: no summary is created, no entry added or removed. -/
theorem compact_context_identity_on_small_compactable
    (maxT : Nat) (env : LLMEnv) (entries : List ContextEntry) (cp : Option String)
    (h1 : should_compact_context maxT entries = true)
    (h2 : (compactable_indices entries cp).length < 2) :
    compact_context maxT env entries cp = entries := by
  unfold compact_context
  rw [if_neg (not_not_intro h1), if_pos h2]

/-- Witness for C9: two entries, one the latest plan entry and one matching
the current prompt `"x"`, are over a budget of 0 tokens yet have no
compactable entry; compaction is the identity on them. -/
theorem compact_context_identity_on_small_compactable_witness :
    should_compact_context 0 c9_entries = true
    ∧ (compactable_indices c9_entries (some "x")).length < 2
    ∧ compact_context 0 okEnv c9_entries (some "x") = c9_entries :=
  ⟨by decide, by decide,
    compact_context_identity_on_small_compactable 0 okEnv c9_entries (some "x")
      (by decide) (by decide)⟩

/-- C4: in the evaluation phase, for every task state, a `CONTINUE_PLAN`
decision increments `step_index` by exactly 1 and leaves the status
`IN_PROGRESS`; `TASK_COMPLETE` yields terminal `COMPLETED` and `TASK_FAILED`
yields terminal `FAILED` regardless of iteration count (the state, hence the
iteration counter, is universally quantified and never inspected); and any
decision type outside the known set - for example the decision text
`"FROBNICATE: do a thing"`, whose type parses as `"FROBNICATE"` - yields
terminal `FAILED`. -/
theorem evaluation_decision_routing
    (allow : Bool) (inp : String) (st : TaskState) (msg orig : String) :
    ((process_evaluation_decision allow inp "CONTINUE_PLAN" msg st orig).1 = TaskStatus.IN_PROGRESS
      ∧ (process_evaluation_decision allow inp "CONTINUE_PLAN" msg st orig).2.2.step_index
          = st.step_index + 1)
    ∧ (process_evaluation_decision allow inp "TASK_COMPLETE" msg st orig).1 = TaskStatus.COMPLETED
    ∧ (process_evaluation_decision allow inp "TASK_FAILED" msg st orig).1 = TaskStatus.FAILED
    ∧ (∀ dt : String,
        dt ∉ (["TASK_COMPLETE", "TASK_FAILED", "CONTINUE_PLAN", "REVISE_PLAN",
                "CLARIFY_USER", "VERIFY_ACTION"] : List String) →
        (process_evaluation_decision allow inp dt msg st orig).1 = TaskStatus.FAILED)
    ∧ extract_decision_type_and_message "FROBNICATE: do a thing" = ("FROBNICATE", "do a thing")
    ∧ (process_evaluation_decision allow inp "FROBNICATE" "do a thing" st orig).1
        = TaskStatus.FAILED := by
  refine ⟨⟨rfl, rfl⟩, rfl, rfl, ?_, by decide, rfl⟩
  intro dt hdt
  simp only [List.mem_cons, List.not_mem_nil, or_false] at hdt
  push_neg at hdt
  obtain ⟨h1, h2, h3, h4, h5, h6⟩ := hdt
  simp [process_evaluation_decision, h1, h2, h3, h4, h5, h6]

/-- Witness for C4: the decision type `"FROBNICATE"` is outside the known set
and routes to `FAILED`. -/
theorem evaluation_decision_routing_witness :
    ("FROBNICATE" : String) ∉ (["TASK_COMPLETE", "TASK_FAILED", "CONTINUE_PLAN", "REVISE_PLAN",
        "CLARIFY_USER", "VERIFY_ACTION"] : List String)
    ∧ (process_evaluation_decision true "" "FROBNICATE" "do a thing" {} "orig").1
        = TaskStatus.FAILED :=
  ⟨by decide,
    (evaluation_decision_routing true "" {} "do a thing" "orig").2.2.2.1 "FROBNICATE" (by decide)⟩

set_option maxRecDepth 40000 in
/-- C8: with `max_context_tokens = 2000` (threshold 1500), 40 entries of 200
characters each (50 estimated tokens per entry, 2000 in total), exactly one
preserved latest-plan entry and one distinct preserved current-prompt entry:
`should_compact_context` is true, the 38 compactable entries lose their
oldest 19 (indices 0..18) to one summary entry, and the output has exactly
40 - 19 + 1 = 22 entries (the current prompt matched, so nothing is
appended). -/
theorem scenario_two_compaction :
    should_compact_context 2000 c8_entries = true
    ∧ (compactable_indices c8_entries (some "Q")).length = 38
    ∧ indices_to_compact c8_entries (some "Q") = List.range 19
    ∧ (compact_context 2000 okEnv c8_entries (some "Q")).length = 22 :=
  ⟨by decide, by decide, by decide, by decide⟩

/-- C2: the save/load round-trip on a compacted summary entry is NOT the
identity.  `save_compacted_context` stores the summary under
`llm_full_response`, but `parse_context_entries` reads `llm_full_response`
only for entries of type `success`, so re-loading the same session key turns
the summary text into the fallback `"Error occurred"` and resets
`compaction_level` to 0 (the stored level is never read back). -/
theorem compacted_roundtrip_drops_summary :
    parse_context_entries (save_compacted_context [] [c2_entry] "k") "k"
      = [{ type := "compacted"
           user_prompt := "[HISTORICAL CONTEXT SUMMARY]"
           llm_response := "Error occurred"
           timestamp := "2024-01-01"
           is_original_request := true
           compaction_level := 0 }]
    ∧ parse_context_entries (save_compacted_context [] [c2_entry] "k") "k" ≠ [c2_entry] :=
  ⟨by decide, by decide⟩

/-- C1 counterexample: in normal mode, with the suggested command `ls`
allowed and the user answering `n` at the confirmation prompt, the handler
returns `IN_PROGRESS`, not the terminal `CANCELLED` the claim states. -/
theorem decline_confirmation_not_cancelled :
    (handle_command_suggestion "normal" c1_perm c1_prompt "n" c1_exec "ls" {}).1
      = TaskStatus.IN_PROGRESS
    ∧ (handle_command_suggestion "normal" c1_perm c1_prompt "n" c1_exec "ls" {}).1
      ≠ TaskStatus.CANCELLED :=
  ⟨by decide, by decide⟩

/-- C1 (amended): in normal mode, when the user declines the confirmation for
an allowed suggested command (any answer whose lowercase form differs from
`y`), no execution occurs and the handler returns the NON-terminal status
`IN_PROGRESS` with `last_action_taken = "Command '<cmd>' cancelled by user"`
and `last_action_result = "User cancelled at confirmation"`, feeding the
result to evaluation; terminal `CANCELLED` arises only from the gremlin-mode
permission prompt. -/
theorem decline_confirmation_records_cancellation
    (permission_check : String → String → Bool × String)
    (prompt_for_permission : String → Int × String)
    (execute : String → ExecResult)
    (confirm_input command : String) (st : TaskState)
    (hcmd : command ≠ "report_task_completion")
    (hallowed : (permission_check command "normal").1 = true)
    (hinput : py_lower confirm_input ≠ "y") :
    handle_command_suggestion "normal" permission_check prompt_for_permission
        confirm_input execute command st
      = (TaskStatus.IN_PROGRESS,
          { st with
            last_action_taken := "Command '" ++ command ++ "' cancelled by user"
            last_action_result := "User cancelled at confirmation" }) := by
  unfold handle_command_suggestion
  rw [if_neg hcmd, if_pos hallowed]
  unfold run_allowed_command
  rw [if_pos ⟨rfl, hinput⟩]

/-- Witness for C1 (amended): declining `ls` with the answer `n`. -/
theorem decline_confirmation_records_cancellation_witness :
    ("ls" : String) ≠ "report_task_completion"
    ∧ (c1_perm "ls" "normal").1 = true
    ∧ py_lower "n" ≠ "y"
    ∧ handle_command_suggestion "normal" c1_perm c1_prompt "n" c1_exec "ls" {}
      = (TaskStatus.IN_PROGRESS,
          { ({} : TaskState) with
            last_action_taken := "Command '" ++ "ls" ++ "' cancelled by user"
            last_action_result := "User cancelled at confirmation" }) :=
  ⟨by decide, rfl, by decide,
    decline_confirmation_records_cancellation c1_perm c1_prompt c1_exec "n" "ls" {}
      (by decide) rfl (by decide)⟩

/-- C3 counterexample: when the summary model call fails during a compaction
pass, the text placed in the resulting context is the fixed placeholder
`"[Summary of 1 historical entries - LLM unavailable]"`, which is NOT the
original uncompacted text of the summarized entries. -/
theorem summary_failure_loses_text :
    should_compact_context 2 c3_entries = true
    ∧ ((compact_context 2 failEnv c3_entries none).headD default).llm_response
        = "[Summary of 1 historical entries - LLM unavailable]"
    ∧ "[Summary of 1 historical entries - LLM unavailable]"
        ≠ build_context_text (entries_to_summarize c3_entries none)
    ∧ "[Summary of 1 historical entries - LLM unavailable]"
        ≠ c3_entry.user_prompt ++ c3_entry.llm_response :=
  ⟨by decide, by decide, by decide, by decide⟩

/-- C3 (amended): on model-call failure (payload preparation fails, or the
model returns no response), `compact_context_segment` degrades gracefully and
returns the original concatenated text of its entries unchanged; but
`create_context_summary` - the function the compaction pass actually uses -
returns a fixed placeholder naming the number of entries (`LLM unavailable`
for payload failure, `LLM failed` for a missing response), discarding the
original text. -/
theorem summary_failure_behaviour (env : LLMEnv) (entries : List ContextEntry)
    (lvl : Nat) (h : entries ≠ []) :
    (env.prep (summary_prompt_text (build_context_text entries)) = false →
      create_context_summary env entries
        = "[Summary of " ++ toString entries.length ++ " historical entries - LLM unavailable]")
    ∧ (env.prep (summary_prompt_text (build_context_text entries)) = true →
      env.send (summary_prompt_text (build_context_text entries)) = "" →
      create_context_summary env entries
        = "[Summary of " ++ toString entries.length ++ " historical entries - LLM failed]")
    ∧ (env.prep (if lvl = 1 then compact_prompt_text (build_context_text entries)
          else very_compact_prompt_text (build_context_text entries)) = false →
      compact_context_segment env entries lvl = build_context_text entries)
    ∧ (env.prep (if lvl = 1 then compact_prompt_text (build_context_text entries)
          else very_compact_prompt_text (build_context_text entries)) = true →
      env.send (if lvl = 1 then compact_prompt_text (build_context_text entries)
          else very_compact_prompt_text (build_context_text entries)) = "" →
      compact_context_segment env entries lvl = build_context_text entries) := by
  refine ⟨?_, ?_, ?_, ?_⟩
  · intro hp
    simp [create_context_summary, h, hp]
  · intro hp hs
    simp [create_context_summary, h, hp, hs]
  · intro hp
    by_cases hl : lvl = 1
    · rw [if_pos hl] at hp
      simp [compact_context_segment, h, hl, hp]
    · rw [if_neg hl] at hp
      simp [compact_context_segment, h, hl, hp]
  · intro hp hs
    by_cases hl : lvl = 1
    · rw [if_pos hl] at hp
      rw [if_pos hl] at hs
      simp [compact_context_segment, h, hl, hp, hs]
    · rw [if_neg hl] at hp
      rw [if_neg hl] at hs
      simp [compact_context_segment, h, hl, hp, hs]

/-- Witness for C3 (amended): with a failing payload builder, summarizing one
entry yields the `LLM unavailable` placeholder, and segment compaction
returns the original text. -/
theorem summary_failure_behaviour_witness :
    ([c3_entry] : List ContextEntry) ≠ []
    ∧ failEnv.prep (summary_prompt_text (build_context_text [c3_entry])) = false
    ∧ create_context_summary failEnv [c3_entry]
        = "[Summary of " ++ toString ([c3_entry] : List ContextEntry).length
            ++ " historical entries - LLM unavailable]"
    ∧ compact_context_segment failEnv [c3_entry] 1 = build_context_text [c3_entry] :=
  ⟨by decide, rfl,
    (summary_failure_behaviour failEnv [c3_entry] 1 (by decide)).1 rfl,
    (summary_failure_behaviour failEnv [c3_entry] 1 (by decide)).2.2.1 rfl⟩

/-- C6: for every entry sequence and optional current prompt, the most recent
entry with `is_plan` true and, when a non-empty current prompt is given, the
most recent entry whose prompt contains it verbatim, are never among the
entries replaced by the summary during a compaction pass: both appear
unchanged in the output sequence of `compact_context`. -/
theorem compact_preserves_plan_and_prompt
    (maxT : Nat) (env : LLMEnv) (entries : List ContextEntry) (cp : Option String) :
    (∀ P (hP : P < entries.length),
        (entries[P]).is_plan = true →
        (∀ k (hk : k < entries.length), P < k → (entries[k]).is_plan = false) →
        entries[P] ∈ compact_context maxT env entries cp)
    ∧ (∀ p Q (hQ : Q < entries.length),
        cp = some p → p ≠ "" →
        containsSub p.data ((entries[Q]).user_prompt).data = true →
        (∀ k (hk : k < entries.length), Q < k →
          containsSub p.data ((entries[k]).user_prompt).data = false) →
        entries[Q] ∈ compact_context maxT env entries cp) := by
  constructor
  · intro P hP hplan hmax
    have hlp : latest_plan_index entries = some P := by
      unfold latest_plan_index
      apply find_last_index_eq _ _ _ hP
      · rw [List.getD_eq_getElem entries default hP]
        exact hplan
      · intro k hk1 hk2
        rw [List.getD_eq_getElem entries default hk2]
        exact hmax k hk2 hk1
    exact mem_compact_of_not_mem_indices maxT env entries cp P hP
      (not_mem_indices_of_latest_plan entries cp P hlp)
  · intro p Q hQ hcp hpne hcont hmax
    have hq : current_prompt_index entries cp = some Q := by
      rw [hcp]
      simp only [current_prompt_index]
      rw [if_neg hpne]
      apply find_last_index_eq _ _ _ hQ
      · rw [List.getD_eq_getElem entries default hQ]
        exact hcont
      · intro k hk1 hk2
        rw [List.getD_eq_getElem entries default hk2]
        exact hmax k hk2 hk1
    exact mem_compact_of_not_mem_indices maxT env entries cp Q hQ
      (not_mem_indices_of_current_prompt entries cp Q hq)

/-- Witness for C6: in `c6_entries`, the latest plan entry (index 1) and the
entry containing the live prompt `"zz"` (index 2) both appear in the
compacted output. -/
theorem compact_preserves_plan_and_prompt_witness :
    c6_entries.getD 1 default ∈ compact_context 0 okEnv c6_entries (some "zz")
    ∧ c6_entries.getD 2 default ∈ compact_context 0 okEnv c6_entries (some "zz") := by
  constructor
  · rw [List.getD_eq_getElem c6_entries default (by decide)]
    refine (compact_preserves_plan_and_prompt 0 okEnv c6_entries (some "zz")).1 1 (by decide) ?_ ?_
    · decide
    · intro k hk hlt
      have hk3 : k < 3 := by simpa [c6_entries] using hk
      interval_cases k
      rfl
  · rw [List.getD_eq_getElem c6_entries default (by decide)]
    refine (compact_preserves_plan_and_prompt 0 okEnv c6_entries (some "zz")).2 "zz" 2 (by decide)
      rfl ?_ ?_ ?_
    · decide
    · decide
    · intro k hk hlt
      have hk3 : k < 3 := by simpa [c6_entries] using hk
      omega

/-- C7: whenever a compaction pass replaces entries (size check triggered and
at least two compactable entries, the selection being `j :: S'`), the output
is exactly: the entries before the first (oldest) summarized index `j`, then
the single summary entry in `j`-th position, then all later entries whose
index was not selected, in their original relative order, then the optional
current-prompt append.  In particular every non-summarized entry appears, in
order, and the summary entry is inserted exactly once, where the oldest
summarized entry stood. -/
theorem compact_context_rebuild_shape
    (maxT : Nat) (env : LLMEnv) (entries : List ContextEntry) (cp : Option String)
    (j : Nat) (S' : List Nat)
    (h1 : should_compact_context maxT entries = true)
    (h2 : 2 ≤ (compactable_indices entries cp).length)
    (hS : indices_to_compact entries cp = j :: S') :
    compact_context maxT env entries cp
      = entries.take j
        ++ summary_entry env entries cp
          :: filterIdx (indices_to_compact entries cp) (j + 1) (entries.drop (j + 1))
        ++ current_prompt_append entries cp := by
  have hpw := indices_to_compact_pairwise entries cp
  rw [hS] at hpw
  have hS' : ∀ k ∈ S', j < k := fun k hk => List.rel_of_pairwise_cons hpw hk
  have hj : j < entries.length := by
    apply mem_indices_to_compact_lt entries cp j
    rw [hS]
    exact List.mem_cons_self _ _
  rw [compact_context_main maxT env entries cp h1 h2, hS]
  rw [rebuild_go_cons_min (summary_entry env entries cp) j S' hS' entries 0 (by omega)
    (by simpa using hj)]
  simp [List.append_assoc]

set_option maxRecDepth 40000 in
/-- Witness for C7: four plain entries over a zero budget; the selection is
`[0, 1]` and the output is the summary followed by the two youngest entries. -/
theorem compact_context_rebuild_shape_witness :
    should_compact_context 0 c7_entries = true
    ∧ 2 ≤ (compactable_indices c7_entries none).length
    ∧ indices_to_compact c7_entries none = [0, 1]
    ∧ compact_context 0 okEnv c7_entries none
        = c7_entries.take 0
          ++ summary_entry okEnv c7_entries none
            :: filterIdx (indices_to_compact c7_entries none) (0 + 1) (c7_entries.drop (0 + 1))
          ++ current_prompt_append c7_entries none :=
  ⟨by decide, by decide, by decide,
    compact_context_rebuild_shape 0 okEnv c7_entries none 0 [1] (by decide) (by decide) (by decide)⟩

set_option maxRecDepth 40000 in
/-- C5 counterexample: the claim fails for a model whose summary is larger
than what it replaces.  Three 8-character entries are over a budget of 2
tokens, and with a 400-character summary the compacted sequence has MORE
estimated tokens than the input. -/
theorem compaction_can_grow_tokens :
    should_compact_context 2 c5_entries = true
    ∧ total_estimated_tokens (compact_context 2 c5_bigEnv c5_entries none)
        > total_estimated_tokens c5_entries :=
  ⟨by decide, by decide⟩

/-- C5 (amended): for every entry sequence on which `should_compact_context`
is true, the compacted sequence (with no current prompt supplied) has at most
the input's total estimated tokens PROVIDED the summary entry's estimated
tokens (fixed prompt plus whatever summary text the model returns) do not
exceed the total estimated tokens of the entries it replaces.  Without that
proviso the bound fails (see the counterexample). -/
theorem compact_context_token_bound
    (maxT : Nat) (env : LLMEnv) (entries : List ContextEntry)
    (h1 : should_compact_context maxT entries = true)
    (hsum : estimate_token_count
        ("[HISTORICAL CONTEXT SUMMARY]"
          ++ create_context_summary env (entries_to_summarize entries none))
        ≤ total_estimated_tokens (entries_to_summarize entries none)) :
    total_estimated_tokens (compact_context maxT env entries none)
      ≤ total_estimated_tokens entries := by
  by_cases h2 : 2 ≤ (compactable_indices entries none).length
  case neg =>
    unfold compact_context
    rw [if_neg (not_not_intro h1), if_pos (by omega)]
  case pos =>
    obtain ⟨j, S', hS⟩ : ∃ j S', indices_to_compact entries none = j :: S' := by
      cases hI : indices_to_compact entries none with
      | nil => exact absurd hI (indices_to_compact_ne_nil entries none h2)
      | cons a t => exact ⟨a, t, rfl⟩
    have hpw := indices_to_compact_pairwise entries none
    rw [hS] at hpw
    have hS' : ∀ k ∈ S', j < k := fun k hk => List.rel_of_pairwise_cons hpw hk
    have hj : j < entries.length := by
      apply mem_indices_to_compact_lt entries none j
      rw [hS]
      exact List.mem_cons_self _ _
    have hmemS : ∀ k ∈ S', k < entries.length := by
      intro k hk
      apply mem_indices_to_compact_lt entries none k
      rw [hS]
      exact List.mem_cons_of_mem _ hk
    have hmain := compact_context_main maxT env entries none h1 h2
    rw [hS] at hmain
    rw [rebuild_go_cons_min _ j S' hS' entries 0 (by omega) (by simpa using hj)] at hmain
    have happ : current_prompt_append entries none = [] := rfl
    rw [happ, List.append_nil] at hmain
    simp only [Nat.sub_zero] at hmain
    rw [hmain, total_estimated_tokens_append, total_estimated_tokens_cons]
    have hdecomp : entries = entries.take j ++ entries[j] :: entries.drop (j + 1) := by
      conv_lhs => rw [← List.take_append_drop j entries]
      rw [List.drop_eq_getElem_cons hj]
    have hTtot : total_estimated_tokens entries
        = total_estimated_tokens (entries.take j)
          + (estimate_token_count ((entries[j]).user_prompt ++ (entries[j]).llm_response)
            + total_estimated_tokens (entries.drop (j + 1))) := by
      conv_lhs => rw [hdecomp]
      rw [total_estimated_tokens_append, total_estimated_tokens_cons]
    have hpart := total_filter_pick (j :: S') (entries.drop (j + 1)) (j + 1)
    have hpick1 : pickIdx (j :: S') (j + 1) (entries.drop (j + 1))
        = pickIdx S' (j + 1) (entries.drop (j + 1)) :=
      pickIdx_drop_head j S' _ (j + 1) (by omega)
    have hpick2 : pickIdx S' (j + 1) (entries.drop (j + 1))
        = S'.map fun k => (entries.drop (j + 1)).getD (k - (j + 1)) default := by
      apply pickIdx_sorted S' hpw.of_cons
      intro k hk
      have h1k := hS' k hk
      have h2k := hmemS k hk
      rw [List.length_drop]
      omega
    have hmapeq : (S'.map fun k => (entries.drop (j + 1)).getD (k - (j + 1)) default)
        = S'.map fun k => entries.getD k default := by
      apply List.map_congr_left
      intro k hk
      have h1k := hS' k hk
      rw [List.getD_eq_getElem?_getD, List.getD_eq_getElem?_getD, List.getElem?_drop]
      have heq : (j + 1) + (k - (j + 1)) = k := by omega
      rw [heq]
    have hets : entries_to_summarize entries none
        = entries.getD j default :: S'.map fun k => entries.getD k default := by
      unfold entries_to_summarize
      rw [hS, List.map_cons]
    have hgd : entries.getD j default = entries[j] := List.getD_eq_getElem entries default hj
    have hTets : total_estimated_tokens (entries_to_summarize entries none)
        = estimate_token_count ((entries[j]).user_prompt ++ (entries[j]).llm_response)
          + total_estimated_tokens (pickIdx (j :: S') (j + 1) (entries.drop (j + 1))) := by
      rw [hets, total_estimated_tokens_cons, hgd, hpick1, hpick2, hmapeq]
    simp only [summary_entry]
    omega

set_option maxRecDepth 40000 in
/-- Witness for C5 (amended): four 40-character entries over a budget of 2
tokens compact to a one-character summary; the bound hypothesis holds and the
total shrinks. -/
theorem compact_context_token_bound_witness :
    should_compact_context 2 c5_wit_entries = true
    ∧ estimate_token_count
        ("[HISTORICAL CONTEXT SUMMARY]"
          ++ create_context_summary c5_smallEnv (entries_to_summarize c5_wit_entries none))
        ≤ total_estimated_tokens (entries_to_summarize c5_wit_entries none)
    ∧ total_estimated_tokens (compact_context 2 c5_smallEnv c5_wit_entries none)
        ≤ total_estimated_tokens c5_wit_entries :=
  ⟨by decide, by decide,
    compact_context_token_bound 2 c5_smallEnv c5_wit_entries (by decide) (by decide)⟩

theorem plan_phase_run_one_trace (env : PlanEnv) (a : Nat) (context : String) (st : TaskState)
    (hprep : env.prep context = true) :
    (plan_phase_run env 1 a context st).2 = [(a + 1, context)] := by
  show (plan_phase_run env (0 + 1) a context st).2 = [(a + 1, context)]
  simp only [plan_phase_run]
  rw [if_neg (not_not_intro hprep)]
  split_ifs <;> simp [plan_phase_run]

/-- C10 counterexample: a response that contains `<checklist>` but no
`<instruction>` and additionally a `CLARIFY_USER:` decision is NOT rejected:
with clarifying questions enabled the plan phase suspends for a line of user
input after a single model call - no second call is issued and no corrective
context naming the missing instruction tag is built. -/
theorem plan_phase_clarify_no_second_call :
    parse_llm_plan c10_clarify_response ≠ ""
    ∧ parse_llm_instruction c10_clarify_response = ""
    ∧ (plan_phase_run c10_clarify_env 2 0 "C" {}).2 = [(1, "C")]
    ∧ (plan_phase_run c10_clarify_env 2 0 "C" {}).1
        = some (TaskStatus.IN_PROGRESS,
            { ({} : TaskState) with
              user_clarification := "answer"
              last_eval_decision := "PLANNER_CLARIFY" }) :=
  ⟨by decide, by decide, by decide, by decide⟩

/-- C10 (amended): in the plan phase, for every model response that contains
a `<checklist>` block but no `<instruction>` block AND whose decision does
not start with `CLARIFY_USER:`, the response is rejected: the phase does not
terminate on this protocol violation (one unit of fuel ends with the loop
still running), and - provided payload preparation keeps succeeding - a
second model call is issued with attempt counter 2 whose input context is the
correction request naming exactly the missing instruction tag (the message
`instruction_missing_msg` occurs verbatim inside it). -/
theorem plan_phase_retry_names_missing_instruction
    (env : PlanEnv) (context : String) (st : TaskState)
    (hprep : env.prep context = true)
    (hresp : env.send context ≠ "")
    (hplan : parse_llm_plan (env.send context) ≠ "")
    (hinstr : parse_llm_instruction (env.send context) = "")
    (hdec : py_startsWith (parse_llm_decision (env.send context)) "CLARIFY_USER:" = false)
    (hprep2 : env.prep (plan_correction_context instruction_missing_msg context) = true) :
    (plan_phase_run env 1 0 context st).1 = none
    ∧ (plan_phase_run env 2 0 context st).2
        = [(1, context), (2, plan_correction_context instruction_missing_msg context)]
    ∧ plan_correction_context instruction_missing_msg context
        = plan_correction_lead
          ++ (instruction_missing_msg ++ plan_correction_suffix context) := by
  have herr : String.intercalate " "
      ((if parse_llm_plan (env.send context) = "" then [checklist_missing_msg] else [])
        ++ (if parse_llm_instruction (env.send context) = "" then [instruction_missing_msg] else []))
      = instruction_missing_msg := by
    rw [if_neg hplan, if_pos hinstr]
    rfl
  have hstep : ∀ fuel : Nat,
      plan_phase_run env (fuel + 1) 0 context st
        = ((plan_phase_run env fuel 1 (plan_correction_context instruction_missing_msg context)
              { st with
                current_plan := parse_llm_plan (env.send context)
                current_instruction := parse_llm_instruction (env.send context)
                planner_summary := parse_llm_summary (env.send context)
                definition_of_done := parse_definition_of_done (env.send context) }).1,
            (1, context)
              :: (plan_phase_run env fuel 1 (plan_correction_context instruction_missing_msg context)
                  { st with
                    current_plan := parse_llm_plan (env.send context)
                    current_instruction := parse_llm_instruction (env.send context)
                    planner_summary := parse_llm_summary (env.send context)
                    definition_of_done := parse_definition_of_done (env.send context) }).2) := by
    intro fuel
    simp only [plan_phase_run]
    rw [if_neg (not_not_intro hprep), if_neg hresp, if_neg (by simp [hdec]),
      if_neg (by simp [hinstr]), herr]
  refine ⟨?_, ?_, ?_⟩
  · show (plan_phase_run env (0 + 1) 0 context st).1 = none
    rw [hstep 0]
    rfl
  · show (plan_phase_run env (1 + 1) 0 context st).2
        = [(1, context), (2, plan_correction_context instruction_missing_msg context)]
    rw [hstep 1]
    rw [plan_phase_run_one_trace env 1 (plan_correction_context instruction_missing_msg context) _
      hprep2]
  · exact String.append_assoc _ _ _

/-- Witness for C10 (amended): the response `"<checklist>1. step</checklist>"`
to the context `"CTX"` triggers a retry whose second call carries the
correction request. -/
theorem plan_phase_retry_names_missing_instruction_witness :
    c10_env.prep "CTX" = true
    ∧ parse_llm_plan (c10_env.send "CTX") ≠ ""
    ∧ parse_llm_instruction (c10_env.send "CTX") = ""
    ∧ ((plan_phase_run c10_env 1 0 "CTX" {}).1 = none
      ∧ (plan_phase_run c10_env 2 0 "CTX" {}).2
          = [(1, "CTX"), (2, plan_correction_context instruction_missing_msg "CTX")]
      ∧ plan_correction_context instruction_missing_msg "CTX"
          = plan_correction_lead
            ++ (instruction_missing_msg ++ plan_correction_suffix "CTX")) :=
  ⟨rfl, by decide, by decide,
    plan_phase_retry_names_missing_instruction c10_env "CTX" {} rfl (by decide) (by decide)
      (by decide) (by decide) rfl⟩
